import Mathlib

/-!
Verification of the junctionfs-auth gateway against its specification.

The development shallowly embeds the two variants of the gateway:
the metadata-backed variant (src/index.js, credential collections stored in
the user's identity-provider profile metadata) and the cache-backed variant
(src/unnamed/part_000, one cache entry per credential keyed by
`userId_name_type`).  External collaborators (the metadata service, the
key-value cache, the Express response object) are modelled by their
documented semantics; JavaScript runtime behaviour (falsiness, TypeError on
property access of `undefined`, ReferenceError on unbound identifiers) is
made explicit.
-/

namespace JunctionAuth

/-- One stored external-service credential: the `{name, type, data}` objects
kept in a user's `services` collection (src/index.js `addService`).  The
opaque token payload is kept in its serialized form. -/
structure Service where
  name : String
  type : String
  data : String
  deriving DecidableEq

/-- Possible runtime shapes of the `services` field of a user's metadata: the
intended array of records, or a corrupted scalar (a number — the corruption
observed in the source comment — or a string). -/
inductive SVal where
  | num (n : Int)
  | str (s : String)
  | arr (l : List Service)
  deriving DecidableEq

/-- Association-list lookup keyed by strings (first binding wins). -/
def assocGet {α : Type} : List (String × α) → String → Option α
  | [], _ => none
  | (k, v) :: r, x => if k = x then some v else assocGet r x

/-- Association-list update: replace the first binding of the key, or append a
new binding when the key is absent. -/
def assocSet {α : Type} : List (String × α) → String → α → List (String × α)
  | [], x, v => [(x, v)]
  | (k, w) :: r, x, v => if k = x then (k, v) :: r else (k, w) :: assocSet r x v

/-- State of the metadata backend: each user's `services` metadata field
(`none` = the user's metadata has no `services` key, i.e. `undefined`). -/
abbrev MetaStore := List (String × SVal)

/-- Reading `metadata.services` for a user (the `UserMetadata.getUserMetadata`
call; absent metadata yields an empty object, hence `undefined`). -/
def getUserMetadata (st : MetaStore) (uid : String) : Option SVal :=
  assocGet st uid

/-- Writing the `services` metadata field for a user
(`UserMetadata.updateUserMetadata(userId, { services })`). -/
def updateUserMetadata (st : MetaStore) (uid : String) (v : SVal) : MetaStore :=
  assocSet st uid v

theorem assocGet_assocSet_self {α : Type} (l : List (String × α)) (x : String) (v : α) :
    assocGet (assocSet l x v) x = some v := by
  induction l with
  | nil => simp [assocGet, assocSet]
  | cons hd tl ih =>
    obtain ⟨k, w⟩ := hd
    by_cases h : k = x
    · simp [assocGet, assocSet, h]
    · simp [assocGet, assocSet, h, ih]

theorem assocGet_assocSet_ne {α : Type} (l : List (String × α)) (x y : String) (v : α)
    (h : y ≠ x) : assocGet (assocSet l x v) y = assocGet l y := by
  induction l with
  | nil => simp [assocGet, assocSet, Ne.symm h]
  | cons hd tl ih =>
    obtain ⟨k, w⟩ := hd
    by_cases hk : k = x
    · subst hk
      simp [assocGet, assocSet, Ne.symm h]
    · simp [assocGet, assocSet, hk, ih]

/-- Errors a handler can raise: a TypeError (property access or method call on
a value that does not support it), a ReferenceError (unbound identifier), or a
thrown string. -/
inductive JsErr where
  | typeError
  | referenceError
  | thrown (msg : String)
  deriving DecidableEq

/-- Implements src/index.js `getServices`: read `metadata.services`; when it is
a number (the corruption observed in the source comment) write an empty array
back and re-read; every other shape is returned as-is.  Returns the value seen
by the caller together with the store after the call. -/
def getServices (st : MetaStore) (uid : String) : Option SVal × MetaStore :=
  match getUserMetadata st uid with
  | some (SVal.num _) =>
    let st1 := updateUserMetadata st uid (SVal.arr [])
    (getUserMetadata st1 uid, st1)
  | v => (v, st)

/-- Implements src/index.js `getServiceData`: `null` when `services` is falsy
(`undefined`, `""`, `0`), `services.find(x => x.name == name)` on an array,
and a TypeError on a truthy non-array (no `.find` method). -/
def getServiceData (st : MetaStore) (uid n : String) :
    Except JsErr (Option Service) × MetaStore :=
  match getServices st uid with
  | (none, st1) => (Except.ok none, st1)
  | (some (SVal.str s), st1) =>
    if s = "" then (Except.ok none, st1) else (Except.error JsErr.typeError, st1)
  | (some (SVal.num k), st1) =>
    if k = 0 then (Except.ok none, st1) else (Except.error JsErr.typeError, st1)
  | (some (SVal.arr l), st1) => (Except.ok (l.find? (fun x => x.name == n)), st1)

/-- Implements src/index.js `addService`: throw a conflict when a record with
the name already exists, otherwise append `{name, type, data}` (starting from
`[]` when `services?.length` is falsy) and persist the whole collection. -/
def addService (st : MetaStore) (uid n ty d : String) :
    Except JsErr Unit × MetaStore :=
  match getServices st uid with
  | (services, st1) =>
    match getServiceData st1 uid n with
    | (Except.error e, st2) => (Except.error e, st2)
    | (Except.ok existing, st2) =>
      if existing.isSome then
        (Except.error (JsErr.thrown "Trying to add a service which already exists"), st2)
      else
        let l :=
          match services with
          | some (SVal.arr l0) => if l0.length = 0 then [] else l0
          | _ => []
        (Except.ok (), updateUserMetadata st2 uid (SVal.arr (l ++ [⟨n, ty, d⟩])))

/-- Effect of `services.findIndex(x => x.name == name)` followed by
`services[serviceIndex].data = data`: replace the `data` of the first record
whose name matches; `none` when there is no match (index `-1`, where the
element access yields `undefined` and the assignment throws a TypeError). -/
def updateFirst (n d : String) : List Service → Option (List Service)
  | [] => none
  | x :: r =>
    if x.name == n then some ({ x with data := d } :: r)
    else (updateFirst n d r).map (fun r1 => x :: r1)

/-- Implements src/index.js `editService`: update the first record whose name
matches and persist the whole collection; a missing record (or a non-array
`services`, which has no `findIndex`) throws a TypeError. -/
def editService (st : MetaStore) (uid n d : String) :
    Except JsErr Unit × MetaStore :=
  match getServices st uid with
  | (some (SVal.arr l), st1) =>
    match updateFirst n d l with
    | some l1 => (Except.ok (), updateUserMetadata st1 uid (SVal.arr l1))
    | none => (Except.error JsErr.typeError, st1)
  | (_, st1) => (Except.error JsErr.typeError, st1)

/-- Body shapes of a response the gateway itself produces: an empty body, the
JSON array of `{name, type}` objects (metadata variant listing), or the JSON
array of `{id, type}` objects (cache variant listing). -/
inductive ResBody where
  | empty
  | jsonArr (items : List (String × String))
  | jsonIds (items : List (String × String))
  deriving DecidableEq

/-- An HTTP response produced by the gateway itself. -/
structure HttpResponse where
  status : Nat
  body : ResBody
  deriving DecidableEq

/-- A request forwarded upstream, with the two injected headers. -/
structure Forward where
  target : String
  authenticatedUser : String
  providerCredentials : String
  deriving DecidableEq

/-- Outcome of the catch-all proxy handler: either an own response or a
forward to the backend origin. -/
inductive AllResult where
  | responded (r : HttpResponse)
  | forwarded (fw : Forward)
  deriving DecidableEq

/-- Whether the user owns a record with the given name (their stored
collection is an array holding a record whose `name` matches). -/
def hasRecordNamed (st : MetaStore) (uid n : String) : Bool :=
  match getUserMetadata st uid with
  | some (SVal.arr l) => l.any (fun x => x.name == n)
  | _ => false

/-- Well-formedness used as a hypothesis: the user's stored `services` field is
anything except a truthy (non-empty) string, the one shape whose lookup
throws before the handlers' own error handling is reached. -/
def wfUserMeta (st : MetaStore) (uid : String) : Bool :=
  match getUserMetadata st uid with
  | some (SVal.str s) => s == ""
  | _ => true

/-- Per-user uniqueness invariant of the spec: when the user's collection is an
array, its record names are pairwise distinct. -/
def userUnique (st : MetaStore) (uid : String) : Prop :=
  match getUserMetadata st uid with
  | some (SVal.arr l) => (l.map Service.name).Nodup
  | _ => True

instance (st : MetaStore) (uid : String) : Decidable (userUnique st uid) := by
  unfold userUnique
  split
  · exact List.nodupDecidable _
  · exact inferInstance

/-- Implements the src/index.js `app.get("/api/*")` handler body after session
resolution: `services?.map(x => ({name: x.name, type: x.type}))` rendered with
`res.json`; `res.json(undefined)` sends an empty body, and `?.map` on a truthy
non-array throws. -/
def apiGetHandler (st : MetaStore) (uid : String) :
    Except JsErr HttpResponse × MetaStore :=
  match getServices st uid with
  | (none, st1) => (Except.ok ⟨200, ResBody.empty⟩, st1)
  | (some (SVal.arr l), st1) =>
    (Except.ok ⟨200, ResBody.jsonArr (l.map (fun x => (x.name, x.type)))⟩, st1)
  | (some (SVal.str _), st1) => (Except.error JsErr.typeError, st1)
  | (some (SVal.num _), st1) => (Except.error JsErr.typeError, st1)

/-- Implements the src/index.js `app.all("/api/*")` handler body after session
resolution: look up the caller's record named by the `provider-id` header,
inject the `authenticated-user` and `provider-credentials` headers and forward
to the backend origin; any error inside the `try` (including the TypeError
from reading `.data` of a failed lookup) is caught into an empty 500. -/
def apiAllHandler (st : MetaStore) (target uid pid : String) :
    AllResult × MetaStore :=
  match getServiceData st uid pid with
  | (Except.error _, st1) => (AllResult.responded ⟨500, ResBody.empty⟩, st1)
  | (Except.ok none, st1) => (AllResult.responded ⟨500, ResBody.empty⟩, st1)
  | (Except.ok (some svc), st1) =>
    (AllResult.forwarded ⟨target, uid, svc.data⟩, st1)

/-- Values bound by identifiers in the scope of the metadata-variant PUT
handler: the destructured body fields (strings) and the request/response
objects of the closure. -/
inductive ScopeVal where
  | str (s : String)
  | reqObj
  | resObj
  deriving DecidableEq

/-- Identifier resolution over a scope. -/
def scopeLookup : List (String × ScopeVal) → String → Option ScopeVal
  | [], _ => none
  | (k, v) :: r, x => if k = x then some v else scopeLookup r x

/-- The identifiers bound in the scope of the metadata-variant
`app.put("/api/*")` handler (src/index.js lines 157-165): the closure
parameters `req` and `res` and the consts `name`, `type`, `data` read from
the body.  Neither the handler nor the surrounding module scope (which binds
only the imports, configuration constants, `app` and the four store helpers)
binds `userId`. -/
def putHandlerScope (n ty d : String) : List (String × ScopeVal) :=
  [("req", ScopeVal.reqObj), ("res", ScopeVal.resObj),
   ("name", ScopeVal.str n), ("type", ScopeVal.str ty), ("data", ScopeVal.str d)]

/-- Implements the src/index.js `app.put("/api/*")` handler body after session
resolution: evaluating the call `addService(userId, name, type, data)` first
resolves the identifier `userId`; since it is bound nowhere in scope the
handler throws a ReferenceError before `addService` runs and before the 201
line is reached.  (Were the identifier bound, `addService` would be started
without `await` and the 201 sent unconditionally.) -/
def apiPutHandler (st : MetaStore) (n ty d : String) :
    Except JsErr (Option HttpResponse) × MetaStore :=
  match scopeLookup (putHandlerScope n ty d) "userId" with
  | none => (Except.error JsErr.referenceError, st)
  | some sv =>
    let uid := match sv with | ScopeVal.str s => s | _ => ""
    let r1 := addService st uid n ty d
    (Except.ok (some ⟨201, ResBody.empty⟩), r1.2)

/-- Result of the external session service's validation for a request. -/
inductive SessionCheck where
  | valid (uid : String)
  | missing
  deriving DecidableEq

/-- Modelled from the spec: the `verifySession` middleware comes from the
external session-management library and is not part of this repository.  Per
spec section 4.3, with session required it short-circuits an absent or
invalid session with an unauthorized response before the route handler runs,
and otherwise resolves the caller's user id. -/
def verifySessionGate : SessionCheck → Option String
  | SessionCheck.valid uid => some uid
  | SessionCheck.missing => none

/-- The metadata-variant GET route: session gate composed with the handler. -/
def apiGetRoute (sess : SessionCheck) (st : MetaStore) :
    Except JsErr HttpResponse × MetaStore :=
  match verifySessionGate sess with
  | none => (Except.ok ⟨401, ResBody.empty⟩, st)
  | some uid => apiGetHandler st uid

/-- The metadata-variant PUT route: session gate composed with the handler. -/
def apiPutRoute (sess : SessionCheck) (st : MetaStore) (n ty d : String) :
    Except JsErr (Option HttpResponse) × MetaStore :=
  match verifySessionGate sess with
  | none => (Except.ok (some ⟨401, ResBody.empty⟩), st)
  | some _ => apiPutHandler st n ty d

/-- The metadata-variant catch-all route: session gate composed with the
proxy handler. -/
def apiAllRoute (sess : SessionCheck) (st : MetaStore) (target pid : String) :
    AllResult × MetaStore :=
  match verifySessionGate sess with
  | none => (AllResult.responded ⟨401, ResBody.empty⟩, st)
  | some uid => apiAllHandler st target uid pid

/-- Shapes of the JSON strings stored as cache values by the cache-backed
variant: `JSON.stringify({name, data})` written by the PUT handler, and
`JSON.stringify({data})` written by the sign-in interceptor.  Both are
non-empty strings, hence truthy. -/
inductive CVal where
  | nameData (n d : String)
  | dataOnly (d : String)
  deriving DecidableEq

/-- State of the cache backend. -/
abbrev Cache := List (String × CVal)

/-- Cache read (`client.get`): `null` when the key is absent. -/
def clientGet (c : Cache) (k : String) : Option CVal :=
  assocGet c k

/-- Cache write (`client.set`). -/
def clientSet (c : Cache) (k : String) (v : CVal) : Cache :=
  assocSet c k v

/-- The keys of all cache entries (`KEYS *`). -/
def cacheKeys (c : Cache) : List String :=
  c.map Prod.fst

/-- Whether the first list starts with the second. -/
def listStarts : List Char → List Char → Bool
  | _, [] => true
  | [], _ :: _ => false
  | a :: s, b :: p => a == b && listStarts s p

/-- JavaScript `String.prototype.startsWith`: `strStarts s p` holds when `s`
starts with `p`. -/
def strStarts (s p : String) : Bool :=
  listStarts s.toList p.toList

/-- Index of the first occurrence of a character, scanning from a base
offset. -/
def charIndexFrom (c : Char) : List Char → Nat → Option Nat
  | [], _ => none
  | a :: r, i => if a = c then some i else charIndexFrom c r (i + 1)

/-- JavaScript `String.prototype.indexOf` for a single character (`-1` when
absent). -/
def jsIndexOf (s : String) (c : Char) : Int :=
  match charIndexFrom c s.toList 0 with
  | some i => (i : Int)
  | none => -1

/-- Scan keeping the last index at which the character occurs. -/
def lastIndexAux (c : Char) : List Char → Nat → Option Nat → Option Nat
  | [], _, acc => acc
  | a :: r, i, acc => lastIndexAux c r (i + 1) (if a = c then some i else acc)

/-- JavaScript `String.prototype.lastIndexOf` for a single character (`-1`
when absent). -/
def jsLastIndexOf (s : String) (c : Char) : Int :=
  match lastIndexAux c s.toList 0 none with
  | some i => (i : Int)
  | none => -1

/-- JavaScript `String.prototype.substring`: negative arguments are clamped to
0, arguments above the length are clamped to the length, and the bounds are
swapped when given in reverse order. -/
def jsSubstring (s : String) (a b : Int) : String :=
  let len : Int := (s.toList.length : Int)
  let a2 := min (max a 0) len
  let b2 := min (max b 0) len
  let lo := (min a2 b2).toNat
  let hi := (max a2 b2).toNat
  String.mk ((s.toList.drop lo).take (hi - lo))

/-- JavaScript one-argument `substring(start)`. -/
def jsSubstringFrom (s : String) (a : Int) : String :=
  jsSubstring s a ((s.toList.length : Int))

/-- Key-parsing step of the cache-variant listing: recover
`{id, type}` from a key as the text between the first and the last `_` and
the text after the last `_`. -/
def parseCacheKey (k : String) : String × String :=
  let start := jsIndexOf k '_' + 1
  let e := jsLastIndexOf k '_'
  (jsSubstring k start e, jsSubstringFrom k (e + 1))

/-- Implements the src/unnamed/part_000 `app.get("/api/*")` handler body after
session resolution: `KEYS *`, keep the keys that start with the caller's user
id, and parse each kept key into an `{id, type}` object. -/
def cacheConnections (c : Cache) (uid : String) : List (String × String) :=
  ((cacheKeys c).filter (fun k => strStarts k uid)).map parseCacheKey

/-- The cache-variant GET handler's response. -/
def cacheApiGetHandler (c : Cache) (uid : String) : HttpResponse :=
  ⟨200, ResBody.jsonIds (cacheConnections c uid)⟩

/-- Implements the src/unnamed/part_000 `app.put("/api/*")` handler body after
session resolution: key `userId_name_type`; an existing entry (always a
non-empty JSON string, hence truthy) makes the handler return a constructed
`Response` object that the framework discards, so no response is sent and
nothing is written; otherwise `JSON.stringify({name, data})` is stored under
the key and a 201 is sent. -/
def cachePutHandler (c : Cache) (uid n ty d : String) :
    Option HttpResponse × Cache :=
  let key := uid ++ "_" ++ n ++ "_" ++ ty
  match clientGet c key with
  | some _ => (none, c)
  | none => (some ⟨201, ResBody.empty⟩, clientSet c key (CVal.nameData n d))

/-- The `data` field recovered by `JSON.parse` of a stored cache value. -/
def cvalData : CVal → String
  | CVal.nameData _ d => d
  | CVal.dataOnly d => d

/-- Implements the src/unnamed/part_000 `app.all("/api/*")` handler body after
session resolution: key `userId_providerId_providerType`; when the entry is
absent, `JSON.parse("null")` yields `null` and the subsequent `.data` access
throws, caught into an empty 500; otherwise the parsed value's `data` is
injected as the `provider-credentials` header and the request forwarded. -/
def cacheApiAllHandler (c : Cache) (target uid pid pty : String) : AllResult :=
  match clientGet c (uid ++ "_" ++ pid ++ "_" ++ pty) with
  | none => AllResult.responded ⟨500, ResBody.empty⟩
  | some v => AllResult.forwarded ⟨target, uid, cvalData v⟩

/-- The cache-variant GET route: session gate composed with the handler. -/
def cacheGetRoute (sess : SessionCheck) (c : Cache) : HttpResponse :=
  match verifySessionGate sess with
  | none => ⟨401, ResBody.empty⟩
  | some uid => cacheApiGetHandler c uid

/-- The cache-variant PUT route: session gate composed with the handler. -/
def cachePutRoute (sess : SessionCheck) (c : Cache) (n ty d : String) :
    Option HttpResponse × Cache :=
  match verifySessionGate sess with
  | none => (some ⟨401, ResBody.empty⟩, c)
  | some uid => cachePutHandler c uid n ty d

/-- The cache-variant catch-all route: session gate composed with the proxy
handler. -/
def cacheAllRoute (sess : SessionCheck) (c : Cache) (target pid pty : String) :
    AllResult :=
  match verifySessionGate sess with
  | none => AllResult.responded ⟨401, ResBody.empty⟩
  | some uid => cacheApiAllHandler c target uid pid pty

/-- The wrapped sign-in completion's result as far as the interceptor reads
it: the success flag (`status === "OK"`), the signed-in user's id, and the
serialized token-exchange response (`authCodeResponse`). -/
structure SignInResult where
  isOK : Bool
  userId : String
  authCodeResponse : String
  deriving DecidableEq

/-- A register or update operation performed on the credential store. -/
inductive WriteEvent where
  | register (uid n ty : String)
  | update (uid n : String)
  deriving DecidableEq

/-- Implements the src/index.js `thirdPartySignInUpPOST` override: run the
wrapped completion (a failure is logged and swallowed, after which reading
`.status` of the undefined result throws a TypeError); on success, register a
"Google Drive" record when the user has none, otherwise update that record's
`data` with the token-exchange response; finally return the original result.
Returns the response, the store after the call, and the list of
register/update operations performed. -/
def thirdPartySignInUpPOST (orig : Except JsErr SignInResult) (st : MetaStore) :
    Except JsErr SignInResult × MetaStore × List WriteEvent :=
  match orig with
  | Except.error _ => (Except.error JsErr.typeError, st, [])
  | Except.ok r =>
    if r.isOK then
      match getServiceData st r.userId "Google Drive" with
      | (Except.error e, st1) => (Except.error e, st1, [])
      | (Except.ok none, st1) =>
        match addService st1 r.userId "Google Drive" "GoogleDrive" r.authCodeResponse with
        | (Except.ok _, st2) =>
          (Except.ok r, st2, [WriteEvent.register r.userId "Google Drive" "GoogleDrive"])
        | (Except.error e, st2) => (Except.error e, st2, [])
      | (Except.ok (some _), st1) =>
        match editService st1 r.userId "Google Drive" r.authCodeResponse with
        | (Except.ok _, st2) =>
          (Except.ok r, st2, [WriteEvent.update r.userId "Google Drive"])
        | (Except.error e, st2) => (Except.error e, st2, [])
    else (Except.ok r, st, [])

/-- Implements the src/unnamed/part_000 `thirdPartySignInUpPOST` override: the
same swallow-then-dereference wrapper, but the persistence side effect is a
single unconditional cache write of `JSON.stringify({data})` under the key
`userId_Google Drive_GoogleDrive`. -/
def cacheSignInUpPOST (orig : Except JsErr SignInResult) (c : Cache) :
    Except JsErr SignInResult × Cache :=
  match orig with
  | Except.error _ => (Except.error JsErr.typeError, c)
  | Except.ok r =>
    if r.isOK then
      (Except.ok r,
        clientSet c (r.userId ++ "_Google Drive_GoogleDrive")
          (CVal.dataOnly r.authCodeResponse))
    else (Except.ok r, c)

theorem getServices_of_none {st : MetaStore} {uid : String}
    (h : getUserMetadata st uid = none) : getServices st uid = (none, st) := by
  simp [getServices, h]

theorem getServices_of_arr {st : MetaStore} {uid : String} {l : List Service}
    (h : getUserMetadata st uid = some (SVal.arr l)) :
    getServices st uid = (some (SVal.arr l), st) := by
  simp [getServices, h]

theorem getServices_of_str {st : MetaStore} {uid s : String}
    (h : getUserMetadata st uid = some (SVal.str s)) :
    getServices st uid = (some (SVal.str s), st) := by
  simp [getServices, h]

theorem getServices_of_num {st : MetaStore} {uid : String} {k : Int}
    (h : getUserMetadata st uid = some (SVal.num k)) :
    getServices st uid =
      (some (SVal.arr []), updateUserMetadata st uid (SVal.arr [])) := by
  have h2 : assocGet st uid = some (SVal.num k) := h
  simp [getServices, getUserMetadata, updateUserMetadata, h2, assocGet_assocSet_self]

theorem getServiceData_of_none {st : MetaStore} {uid n : String}
    (h : getUserMetadata st uid = none) :
    getServiceData st uid n = (Except.ok none, st) := by
  simp [getServiceData, getServices_of_none h]

theorem getServiceData_of_arr {st : MetaStore} {uid n : String} {l : List Service}
    (h : getUserMetadata st uid = some (SVal.arr l)) :
    getServiceData st uid n = (Except.ok (l.find? (fun x => x.name == n)), st) := by
  simp [getServiceData, getServices_of_arr h]

theorem getServiceData_of_strEmpty {st : MetaStore} {uid n : String}
    (h : getUserMetadata st uid = some (SVal.str "")) :
    getServiceData st uid n = (Except.ok none, st) := by
  simp [getServiceData, getServices_of_str h]

theorem getServiceData_of_strTruthy {st : MetaStore} {uid n s : String}
    (h : getUserMetadata st uid = some (SVal.str s)) (hs : s ≠ "") :
    getServiceData st uid n = (Except.error JsErr.typeError, st) := by
  simp [getServiceData, getServices_of_str h, hs]

theorem getServiceData_of_num {st : MetaStore} {uid n : String} {k : Int}
    (h : getUserMetadata st uid = some (SVal.num k)) :
    getServiceData st uid n =
      (Except.ok none, updateUserMetadata st uid (SVal.arr [])) := by
  simp [getServiceData, getServices_of_num h]

theorem ite_len_self (l : List Service) : (if l.length = 0 then [] else l) = l := by
  cases l <;> simp

theorem addService_of_none {st : MetaStore} {uid : String} (n ty d : String)
    (h : getUserMetadata st uid = none) :
    addService st uid n ty d =
      (Except.ok (), updateUserMetadata st uid (SVal.arr [⟨n, ty, d⟩])) := by
  simp [addService, getServices_of_none h, getServiceData_of_none h]

theorem addService_of_num {st : MetaStore} {uid : String} {k : Int} (n ty d : String)
    (h : getUserMetadata st uid = some (SVal.num k)) :
    addService st uid n ty d =
      (Except.ok (),
        updateUserMetadata (updateUserMetadata st uid (SVal.arr [])) uid
          (SVal.arr [⟨n, ty, d⟩])) := by
  have h1 : getUserMetadata (updateUserMetadata st uid (SVal.arr [])) uid =
      some (SVal.arr []) := by
    simp [getUserMetadata, updateUserMetadata, assocGet_assocSet_self]
  simp [addService, getServices_of_num h, getServiceData_of_arr h1]

theorem addService_of_strEmpty {st : MetaStore} {uid : String} (n ty d : String)
    (h : getUserMetadata st uid = some (SVal.str "")) :
    addService st uid n ty d =
      (Except.ok (), updateUserMetadata st uid (SVal.arr [⟨n, ty, d⟩])) := by
  simp [addService, getServices_of_str h, getServiceData_of_strEmpty h]

theorem addService_of_strTruthy {st : MetaStore} {uid s : String} (n ty d : String)
    (h : getUserMetadata st uid = some (SVal.str s)) (hs : s ≠ "") :
    addService st uid n ty d = (Except.error JsErr.typeError, st) := by
  simp [addService, getServices_of_str h, getServiceData_of_strTruthy h hs]

theorem addService_conflict {st : MetaStore} {uid n : String} {l : List Service}
    {x : Service} (ty d : String)
    (h : getUserMetadata st uid = some (SVal.arr l))
    (hf : l.find? (fun y => y.name == n) = some x) :
    addService st uid n ty d =
      (Except.error (JsErr.thrown "Trying to add a service which already exists"), st) := by
  simp [addService, getServices_of_arr h, getServiceData_of_arr h, hf]

theorem addService_append {st : MetaStore} {uid n : String} {l : List Service}
    (ty d : String)
    (h : getUserMetadata st uid = some (SVal.arr l))
    (hf : l.find? (fun y => y.name == n) = none) :
    addService st uid n ty d =
      (Except.ok (), updateUserMetadata st uid (SVal.arr (l ++ [⟨n, ty, d⟩]))) := by
  simp [addService, getServices_of_arr h, getServiceData_of_arr h, hf, ite_len_self]
  cases l <;> simp

theorem updateFirst_split {n : String} (d : String) (l1 : List Service)
    (x : Service) (l2 : List Service)
    (h1 : ∀ y ∈ l1, y.name ≠ n) (hx : x.name = n) :
    updateFirst n d (l1 ++ x :: l2) = some (l1 ++ { x with data := d } :: l2) := by
  induction l1 with
  | nil => simp [updateFirst, hx]
  | cons y r ih =>
    have hy : y.name ≠ n := h1 y (by simp)
    have hr : ∀ z ∈ r, z.name ≠ n := fun z hz => h1 z (by simp [hz])
    simp [updateFirst, hy, ih hr]

theorem updateFirst_names {n d : String} :
    ∀ {l r : List Service}, updateFirst n d l = some r →
      r.map Service.name = l.map Service.name := by
  intro l
  induction l with
  | nil => intro r h; simp [updateFirst] at h
  | cons x t ih =>
    intro r h
    by_cases hx : x.name == n
    · simp [updateFirst, hx] at h
      subst h
      simp
    · simp [updateFirst, hx] at h
      obtain ⟨r1, hr1, hr⟩ := h
      subst hr
      simp [ih hr1]

theorem updateFirst_isSome_of_find {n d : String} :
    ∀ {l : List Service} {x : Service},
      l.find? (fun y => y.name == n) = some x →
      ∃ r, updateFirst n d l = some r := by
  intro l
  induction l with
  | nil => intro x h; simp at h
  | cons z t ih =>
    intro x h
    by_cases hz : z.name == n
    · exact ⟨{ z with data := d } :: t, by simp [updateFirst, hz]⟩
    · rw [List.find?_cons_of_neg _ (by simp [hz])] at h
      obtain ⟨r, hr⟩ := ih h
      exact ⟨z :: r, by simp [updateFirst, hz, hr]⟩

theorem updateFirst_eq_none {n d : String} :
    ∀ {l : List Service}, (∀ y ∈ l, (y.name == n) = false) →
      updateFirst n d l = none := by
  intro l
  induction l with
  | nil => intro _; simp [updateFirst]
  | cons z t ih =>
    intro h
    have hz := h z (by simp)
    simp [updateFirst, hz, ih (fun y hy => h y (by simp [hy]))]

theorem editService_of_arr_found {st : MetaStore} {uid n : String}
    {l r : List Service} (d : String)
    (h : getUserMetadata st uid = some (SVal.arr l))
    (hu : updateFirst n d l = some r) :
    editService st uid n d =
      (Except.ok (), updateUserMetadata st uid (SVal.arr r)) := by
  simp [editService, getServices_of_arr h, hu]

theorem editService_of_arr_miss {st : MetaStore} {uid n : String}
    {l : List Service} (d : String)
    (h : getUserMetadata st uid = some (SVal.arr l))
    (hu : updateFirst n d l = none) :
    editService st uid n d = (Except.error JsErr.typeError, st) := by
  simp [editService, getServices_of_arr h, hu]

theorem editService_of_none {st : MetaStore} {uid : String} (n d : String)
    (h : getUserMetadata st uid = none) :
    editService st uid n d = (Except.error JsErr.typeError, st) := by
  simp [editService, getServices_of_none h]

theorem editService_of_str {st : MetaStore} {uid s : String} (n d : String)
    (h : getUserMetadata st uid = some (SVal.str s)) :
    editService st uid n d = (Except.error JsErr.typeError, st) := by
  simp [editService, getServices_of_str h]

theorem editService_of_num {st : MetaStore} {uid : String} {k : Int} (n d : String)
    (h : getUserMetadata st uid = some (SVal.num k)) :
    editService st uid n d =
      (Except.error JsErr.typeError, updateUserMetadata st uid (SVal.arr [])) := by
  simp [editService, getServices_of_num h, updateFirst]

theorem listStarts_append (p r : List Char) : listStarts (p ++ r) p = true := by
  induction p with
  | nil => cases r <;> simp [listStarts]
  | cons a t ih => simp [listStarts, ih]

theorem listStarts_of_append {a : List Char} :
    ∀ {b : List Char} (r : List Char), listStarts b a = true →
      listStarts (b ++ r) a = true := by
  induction a with
  | nil =>
    intro b r _
    cases b ++ r <;> simp [listStarts]
  | cons x a2 ih =>
    intro b r h
    cases b with
    | nil => simp [listStarts] at h
    | cons y b2 =>
      simp [listStarts] at h
      simp [listStarts, h.1, ih r h.2]

theorem toList_append (s t : String) : (s ++ t).toList = s.toList ++ t.toList := by
  cases s
  cases t
  rfl

theorem strStarts_of_append {b a : String} (r : String)
    (h : strStarts b a = true) : strStarts (b ++ r) a = true := by
  unfold strStarts at h ⊢
  rw [toList_append]
  exact listStarts_of_append _ h

theorem getUserMetadata_set_self (st : MetaStore) (uid : String) (v : SVal) :
    getUserMetadata (updateUserMetadata st uid v) uid = some v :=
  assocGet_assocSet_self st uid v

theorem getUserMetadata_set_ne (st : MetaStore) (uid u : String) (v : SVal)
    (h : u ≠ uid) :
    getUserMetadata (updateUserMetadata st uid v) u = getUserMetadata st u :=
  assocGet_assocSet_ne st uid u v h

/-- Claim C4 (confirmed): an inbound `/api/*` request without a valid session,
with session required, is answered 401 by the gate with the store unchanged
and nothing forwarded upstream, on every `/api/*` route of both variants; the
route handler never runs. -/
theorem c4_theorem :
    ∀ (st : MetaStore) (c : Cache) (target pid pty n ty d : String),
      apiGetRoute SessionCheck.missing st = (Except.ok ⟨401, ResBody.empty⟩, st) ∧
      apiPutRoute SessionCheck.missing st n ty d =
        (Except.ok (some ⟨401, ResBody.empty⟩), st) ∧
      apiAllRoute SessionCheck.missing st target pid =
        (AllResult.responded ⟨401, ResBody.empty⟩, st) ∧
      cacheGetRoute SessionCheck.missing c = ⟨401, ResBody.empty⟩ ∧
      cachePutRoute SessionCheck.missing c n ty d = (some ⟨401, ResBody.empty⟩, c) ∧
      cacheAllRoute SessionCheck.missing c target pid pty =
        AllResult.responded ⟨401, ResBody.empty⟩ :=
  fun _ _ _ _ _ _ _ _ => ⟨rfl, rfl, rfl, rfl, rfl, rfl⟩

/-- Claim C10 (confirmed): the metadata-variant PUT handler resolves the
unbound identifier `userId` and therefore throws a ReferenceError on every
request, before `addService` is ever entered: no response body is produced,
no record is persisted, and the store is left exactly as it was; the same
holds for the whole route under any valid session. -/
theorem c10_theorem :
    ∀ (st : MetaStore) (uid n ty d : String),
      apiPutHandler st n ty d = (Except.error JsErr.referenceError, st) ∧
      apiPutRoute (SessionCheck.valid uid) st n ty d =
        (Except.error JsErr.referenceError, st) :=
  fun _ _ _ _ _ => ⟨rfl, rfl⟩

/-- Claim C6 counterexample: a user whose stored collection holds the scalar
string "oops" is NOT repaired by the next read — `getServices` returns the
scalar itself and leaves the store untouched, because the source's check
(`typeof metadata.services == "number"`) only fires for numbers. -/
theorem c6_counterexample :
    getServices [("u", SVal.str "oops")] "u" =
      (some (SVal.str "oops"), [("u", SVal.str "oops")]) ∧
    SVal.str "oops" ≠ SVal.arr [] :=
  ⟨rfl, by decide⟩

/-- Claim C6 (corrected): for a user whose stored collection holds a corrupted
NUMERIC scalar, the next `getServices` read resets it to an empty collection,
returns that empty collection without error, and the repair is idempotent:
reading the repaired store again returns the same empty collection and
changes nothing. -/
theorem c6_amended_theorem :
    ∀ (st : MetaStore) (uid : String) (k : Int),
      getUserMetadata st uid = some (SVal.num k) →
      getServices st uid =
        (some (SVal.arr []), updateUserMetadata st uid (SVal.arr [])) ∧
      getServices (updateUserMetadata st uid (SVal.arr [])) uid =
        (some (SVal.arr []), updateUserMetadata st uid (SVal.arr [])) ∧
      getUserMetadata (updateUserMetadata st uid (SVal.arr [])) uid =
        some (SVal.arr []) := by
  intro st uid k h
  have h2 := getUserMetadata_set_self st uid (SVal.arr [])
  exact ⟨getServices_of_num h, getServices_of_arr h2, h2⟩

/-- Witness for the corrected C6 at a concrete corrupted store. -/
theorem c6_amended_witness :
    getServices [("u", SVal.num 7)] "u" = (some (SVal.arr []), [("u", SVal.arr [])]) ∧
    getServices [("u", SVal.arr [])] "u" = (some (SVal.arr []), [("u", SVal.arr [])]) ∧
    getUserMetadata [("u", SVal.arr [])] "u" = some (SVal.arr []) :=
  c6_amended_theorem [("u", SVal.num 7)] "u" 7 rfl

/-- Claim C8 counterexample: for a user with no records the metadata-variant
`getServices` returns `undefined` (not an empty sequence), and the GET
handler's response is a 200 with an EMPTY body (`res.json(undefined)`), not
the empty JSON array. -/
theorem c8_counterexample :
    getServices ([] : MetaStore) "u" = (none, []) ∧
    (getServices ([] : MetaStore) "u").1 ≠ some (SVal.arr []) ∧
    apiGetHandler ([] : MetaStore) "u" = (Except.ok ⟨200, ResBody.empty⟩, []) ∧
    ResBody.empty ≠ ResBody.jsonArr [] :=
  ⟨rfl, by decide, rfl, by decide⟩

/-- Claim C8 (corrected): a user can have no Credential Records in several
store states, and the code treats them differently.  When the stored
collection is the empty array, `getServices` does return the empty sequence
without error and the GET listing responds 200 with the empty JSON array, as
claimed; a numerically corrupted collection is repaired and the GET listing
likewise responds with the empty JSON array; but for a fresh user whose
metadata has no `services` field at all, `getServices` returns no value
(`undefined`) — never an error, store unchanged — and the GET response is a
200 with an EMPTY body (`res.json(undefined)`), not the empty JSON array.
The cache-backed listing over an empty cache returns the empty JSON array. -/
theorem c8_amended_theorem :
    (∀ (st : MetaStore) (uid : String),
       getUserMetadata st uid = some (SVal.arr []) →
       getServices st uid = (some (SVal.arr []), st) ∧
       apiGetHandler st uid = (Except.ok ⟨200, ResBody.jsonArr []⟩, st)) ∧
    (∀ (st : MetaStore) (uid : String) (k : Int),
       getUserMetadata st uid = some (SVal.num k) →
       apiGetHandler st uid =
         (Except.ok ⟨200, ResBody.jsonArr []⟩,
           updateUserMetadata st uid (SVal.arr []))) ∧
    (∀ (st : MetaStore) (uid : String), getUserMetadata st uid = none →
       getServices st uid = (none, st) ∧
       apiGetHandler st uid = (Except.ok ⟨200, ResBody.empty⟩, st)) ∧
    (∀ uid : String, cacheApiGetHandler ([] : Cache) uid = ⟨200, ResBody.jsonIds []⟩) := by
  refine ⟨?_, ?_, ?_, ?_⟩
  · intro st uid h
    exact ⟨getServices_of_arr h, by simp [apiGetHandler, getServices_of_arr h]⟩
  · intro st uid k h
    simp [apiGetHandler, getServices_of_num h]
  · intro st uid h
    exact ⟨getServices_of_none h, by simp [apiGetHandler, getServices_of_none h]⟩
  · intro uid
    rfl

/-- Witness for the corrected C8 at concrete stores in each no-record state:
empty collection, numerically corrupted collection, and absent collection. -/
theorem c8_amended_witness :
    (getServices [("u", SVal.arr [])] "u" = (some (SVal.arr []), [("u", SVal.arr [])]) ∧
      apiGetHandler [("u", SVal.arr [])] "u" =
        (Except.ok ⟨200, ResBody.jsonArr []⟩, [("u", SVal.arr [])])) ∧
    apiGetHandler [("u", SVal.num 3)] "u" =
      (Except.ok ⟨200, ResBody.jsonArr []⟩, [("u", SVal.arr [])]) ∧
    (getServices [("v", SVal.arr [])] "u" = (none, [("v", SVal.arr [])]) ∧
      apiGetHandler [("v", SVal.arr [])] "u" =
        (Except.ok ⟨200, ResBody.empty⟩, [("v", SVal.arr [])])) ∧
    cacheApiGetHandler ([] : Cache) "u" = ⟨200, ResBody.jsonIds []⟩ :=
  ⟨c8_amended_theorem.1 [("u", SVal.arr [])] "u" rfl,
   c8_amended_theorem.2.1 [("u", SVal.num 3)] "u" 3 rfl,
   c8_amended_theorem.2.2.1 [("v", SVal.arr [])] "u" rfl,
   c8_amended_theorem.2.2.2 "u"⟩

/-- Claim C9 (confirmed): the cache-variant listing contains the parsed entry
of every cache key that starts with the caller's user id; consequently, when
user A's id is a proper prefix of user B's id, every record keyed under B
(`uidB_name_type`) also appears in A's listing. -/
theorem c9_theorem :
    (∀ (c : Cache) (uid k : String), k ∈ cacheKeys c → strStarts k uid = true →
       parseCacheKey k ∈ cacheConnections c uid) ∧
    (∀ (c : Cache) (uidA uidB n t : String), uidA ≠ uidB →
       strStarts uidB uidA = true →
       (uidB ++ "_" ++ n ++ "_" ++ t) ∈ cacheKeys c →
       parseCacheKey (uidB ++ "_" ++ n ++ "_" ++ t) ∈ cacheConnections c uidA) := by
  have base : ∀ (c : Cache) (uid k : String), k ∈ cacheKeys c →
      strStarts k uid = true → parseCacheKey k ∈ cacheConnections c uid := by
    intro c uid k hk hs
    exact List.mem_map_of_mem _ (List.mem_filter.mpr ⟨hk, hs⟩)
  refine ⟨base, ?_⟩
  intro c uidA uidB n t _ hpre hk
  exact base c uidA _ hk
    (strStarts_of_append _ (strStarts_of_append _
      (strStarts_of_append _ (strStarts_of_append _ hpre))))

/-- Witness for C9: user id "u" is a proper prefix of "uv", and the record
user "uv" registered shows up in user "u"'s listing. -/
theorem c9_witness :
    parseCacheKey ("uv" ++ "_" ++ "N" ++ "_" ++ "T") ∈
      cacheConnections [("uv_N_T", CVal.nameData "N" "d")] "u" :=
  c9_theorem.2 [("uv_N_T", CVal.nameData "N" "d")] "u" "uv" "N" "T"
    (by decide) (by decide) (by decide)

/-- Claim C5 (confirmed): an authenticated catch-all `/api/*` request whose
`provider-id` (and, in the cache variant, `provider-type`) names no record of
the caller is answered with a generic empty-bodied 500 and is not forwarded
upstream, in both variants; the empty body in particular contains no
credential contents. -/
theorem c5_theorem :
    (∀ (st : MetaStore) (target uid pid : String),
       hasRecordNamed st uid pid = false →
       (apiAllHandler st target uid pid).1 =
         AllResult.responded ⟨500, ResBody.empty⟩) ∧
    (∀ (c : Cache) (target uid pid pty : String),
       clientGet c (uid ++ "_" ++ pid ++ "_" ++ pty) = none →
       cacheApiAllHandler c target uid pid pty =
         AllResult.responded ⟨500, ResBody.empty⟩) := by
  constructor
  · intro st target uid pid h
    cases hm : getUserMetadata st uid with
    | none => simp [apiAllHandler, getServiceData_of_none hm]
    | some v =>
      cases v with
      | num k => simp [apiAllHandler, getServiceData_of_num hm]
      | str s =>
        by_cases hs : s = ""
        · subst hs
          simp [apiAllHandler, getServiceData_of_strEmpty hm]
        · simp [apiAllHandler, getServiceData_of_strTruthy hm hs]
      | arr l =>
        unfold hasRecordNamed at h
        rw [hm] at h
        have h2 : l.any (fun x => x.name == pid) = false := h
        have hf : l.find? (fun x => x.name == pid) = none := by
          rw [List.find?_eq_none]
          intro x hx hpx
          have hT : l.any (fun y => y.name == pid) = true :=
            List.any_eq_true.mpr ⟨x, hx, hpx⟩
          simp [h2] at hT
        simp [apiAllHandler, getServiceData_of_arr hm, hf]
  · intro c target uid pid pty h
    simp [cacheApiAllHandler, h]

/-- Witness for C5 at a concrete store that lacks the requested provider. -/
theorem c5_witness :
    (apiAllHandler [("u", SVal.arr [⟨"a", "t", "d"⟩])] "T" "u" "b").1 =
      AllResult.responded ⟨500, ResBody.empty⟩ ∧
    cacheApiAllHandler ([] : Cache) "T" "u" "b" "t" =
      AllResult.responded ⟨500, ResBody.empty⟩ :=
  ⟨c5_theorem.1 [("u", SVal.arr [⟨"a", "t", "d"⟩])] "T" "u" "b" (by decide),
   c5_theorem.2 [] "T" "u" "b" "t" rfl⟩

/-- Claim C1 counterexample: in the cache-backed variant an empty cache plus a
single registration by user "uA1" makes user "uA"'s listing non-empty (the
key-prefix filter matches), so the listing is not the projection of "uA"'s
own (empty) Credential Collection. -/
theorem c1_counterexample :
    cacheApiGetHandler ((cachePutHandler [] "uA1" "N" "T" "d").2) "uA" =
      ⟨200, ResBody.jsonIds [("N", "T")]⟩ ∧
    cacheApiGetHandler ([] : Cache) "uA" = ⟨200, ResBody.jsonIds []⟩ := by
  constructor
  · decide
  · rfl

/-- Claim C1 (corrected): in the metadata-backed variant the authenticated GET
listing is exactly the `{name, type}` projection of the user's collection
(`data` is never part of the response); in the cache-backed variant the
response still never depends on stored credential values (only on the keys),
but it is the `{id, type}` parse of every cache key starting with the
caller's id, which can include records of users whose id extends the
caller's. -/
theorem c1_amended_theorem :
    (∀ (st : MetaStore) (uid : String) (l : List Service),
       getUserMetadata st uid = some (SVal.arr l) →
       apiGetHandler st uid =
         (Except.ok ⟨200, ResBody.jsonArr (l.map (fun x => (x.name, x.type)))⟩, st)) ∧
    (∀ (c c2 : Cache) (uid : String), cacheKeys c = cacheKeys c2 →
       cacheApiGetHandler c uid = cacheApiGetHandler c2 uid) := by
  constructor
  · intro st uid l h
    simp [apiGetHandler, getServices_of_arr h]
  · intro c c2 uid h
    simp [cacheApiGetHandler, cacheConnections, h]

/-- Witness for the corrected C1: a concrete projection, and two caches that
agree on keys but hold different credential payloads produce the same
listing. -/
theorem c1_amended_witness :
    apiGetHandler [("u", SVal.arr [⟨"n", "t", "d"⟩])] "u" =
      (Except.ok ⟨200, ResBody.jsonArr [("n", "t")]⟩,
        [("u", SVal.arr [⟨"n", "t", "d"⟩])]) ∧
    cacheApiGetHandler [("k_a_b", CVal.nameData "a" "x")] "k" =
      cacheApiGetHandler [("k_a_b", CVal.dataOnly "y")] "k" :=
  ⟨c1_amended_theorem.1 [("u", SVal.arr [⟨"n", "t", "d"⟩])] "u" [⟨"n", "t", "d"⟩] rfl,
   c1_amended_theorem.2 [("k_a_b", CVal.nameData "a" "x")]
     [("k_a_b", CVal.dataOnly "y")] "k" rfl⟩

/-- Claim C7 (confirmed): when the user's collection contains a record named
`n` (decomposed as `l1 ++ x :: l2` with `x` the first such record),
`editService` succeeds and persists the collection with only that record's
`data` replaced — its `name` and `type` and every other record, their order,
and every other user's collection are unchanged; when the user owns no record
named `n`, `editService` fails (the not-found index makes the update throw). -/
theorem c7_theorem :
    (∀ (st : MetaStore) (uid n d : String) (l1 : List Service) (x : Service)
       (l2 : List Service),
       getUserMetadata st uid = some (SVal.arr (l1 ++ x :: l2)) →
       (∀ y ∈ l1, y.name ≠ n) → x.name = n →
       editService st uid n d =
         (Except.ok (),
           updateUserMetadata st uid (SVal.arr (l1 ++ { x with data := d } :: l2))) ∧
       ({ x with data := d } : Service).name = x.name ∧
       ({ x with data := d } : Service).type = x.type ∧
       (∀ u, u ≠ uid →
         getUserMetadata
             (updateUserMetadata st uid (SVal.arr (l1 ++ { x with data := d } :: l2)))
             u =
           getUserMetadata st u)) ∧
    (∀ (st : MetaStore) (uid n d : String), hasRecordNamed st uid n = false →
       (editService st uid n d).1 = Except.error JsErr.typeError) := by
  constructor
  · intro st uid n d l1 x l2 hm h1 hx
    refine ⟨?_, rfl, rfl, ?_⟩
    · exact editService_of_arr_found d hm (updateFirst_split d l1 x l2 h1 hx)
    · intro u hu
      exact getUserMetadata_set_ne st uid u _ hu
  · intro st uid n d h
    cases hm : getUserMetadata st uid with
    | none => simp [editService_of_none n d hm]
    | some v =>
      cases v with
      | num k => simp [editService_of_num n d hm]
      | str s => simp [editService_of_str n d hm]
      | arr l =>
        unfold hasRecordNamed at h
        rw [hm] at h
        have h2 : l.any (fun y => y.name == n) = false := h
        have hp : ∀ y ∈ l, (y.name == n) = false := by
          intro y hy
          cases hq : (y.name == n) with
          | false => rfl
          | true =>
            have hT : l.any (fun z => z.name == n) = true :=
              List.any_eq_true.mpr ⟨y, hy, hq⟩
            simp [h2] at hT
        simp [editService_of_arr_miss d hm (updateFirst_eq_none hp)]

/-- Witness for C7 at a concrete three-record collection and at a store where
the record is absent. -/
theorem c7_witness :
    editService
        [("u", SVal.arr [⟨"a", "ta", "da"⟩, ⟨"n", "tn", "dn"⟩, ⟨"b", "tb", "db"⟩])]
        "u" "n" "D" =
      (Except.ok (),
        [("u", SVal.arr [⟨"a", "ta", "da"⟩, ⟨"n", "tn", "D"⟩, ⟨"b", "tb", "db"⟩])]) ∧
    (editService ([] : MetaStore) "u" "n" "D").1 = Except.error JsErr.typeError :=
  ⟨(c7_theorem.1
      [("u", SVal.arr [⟨"a", "ta", "da"⟩, ⟨"n", "tn", "dn"⟩, ⟨"b", "tb", "db"⟩])]
      "u" "n" "D" [⟨"a", "ta", "da"⟩] ⟨"n", "tn", "dn"⟩ [⟨"b", "tb", "db"⟩]
      rfl (by decide) rfl).1,
   c7_theorem.2 [] "u" "n" "D" rfl⟩

/-- Appending a fresh name to a duplicate-free list of names keeps it
duplicate-free. -/
theorem nodup_concat_str {ns : List String} {n : String} (h : ns.Nodup)
    (hn : n ∉ ns) : (ns ++ [n]).Nodup := by
  rw [List.nodup_append]
  refine ⟨h, List.nodup_singleton n, ?_⟩
  intro a ha hb
  rw [List.mem_singleton] at hb
  subst hb
  exact hn ha

/-- Claim C2 counterexample: in the cache-backed variant, registering the name
"X" twice for user "u" — once with type "A", once with type "B" — is accepted
both times (both return 201) and yields TWO records named "X" in the user's
listing, because the duplicate check keys on `name` AND `type`. -/
theorem c2_counterexample :
    (cachePutHandler [] "u" "X" "A" "d1").1 = some ⟨201, ResBody.empty⟩ ∧
    (cachePutHandler (cachePutHandler [] "u" "X" "A" "d1").2 "u" "X" "B" "d2").1 =
      some ⟨201, ResBody.empty⟩ ∧
    (cacheConnections
          (cachePutHandler (cachePutHandler [] "u" "X" "A" "d1").2 "u" "X" "B" "d2").2
          "u").map
        Prod.fst =
      ["X", "X"] := by
  refine ⟨rfl, ?_, ?_⟩
  · decide
  · decide

/-- Claim C2 (corrected): in the metadata-backed store, `addService` rejects a
duplicate name as a conflict with the store unchanged, and both `addService`
and `editService` preserve per-user name uniqueness; in the cache-backed
variant only re-registering the same `(name, type)` pair is rejected (with no
record written) — registering an existing name under a different type creates
a second record with that name. -/
theorem c2_amended_theorem :
    (∀ (st : MetaStore) (uid n ty d : String) (l : List Service) (x : Service),
       getUserMetadata st uid = some (SVal.arr l) →
       l.find? (fun y => y.name == n) = some x →
       addService st uid n ty d =
         (Except.error (JsErr.thrown "Trying to add a service which already exists"),
           st)) ∧
    (∀ (st : MetaStore) (uid n ty d : String),
       userUnique st uid → userUnique (addService st uid n ty d).2 uid) ∧
    (∀ (st : MetaStore) (uid n d : String),
       userUnique st uid → userUnique (editService st uid n d).2 uid) ∧
    (∀ (c : Cache) (uid n ty d : String) (v : CVal),
       clientGet c (uid ++ "_" ++ n ++ "_" ++ ty) = some v →
       cachePutHandler c uid n ty d = (none, c)) := by
  refine ⟨?_, ?_, ?_, ?_⟩
  · intro st uid n ty d l x hm hf
    exact addService_conflict ty d hm hf
  · intro st uid n ty d hu
    cases hm : getUserMetadata st uid with
    | none =>
      rw [addService_of_none n ty d hm]
      simp [userUnique, getUserMetadata_set_self]
    | some v =>
      cases v with
      | num k =>
        rw [addService_of_num n ty d hm]
        simp [userUnique, getUserMetadata_set_self]
      | str s =>
        by_cases hs : s = ""
        · subst hs
          rw [addService_of_strEmpty n ty d hm]
          simp [userUnique, getUserMetadata_set_self]
        · rw [addService_of_strTruthy n ty d hm hs]
          exact hu
      | arr l =>
        cases hf : l.find? (fun y => y.name == n) with
        | some x =>
          rw [addService_conflict ty d hm hf]
          exact hu
        | none =>
          rw [addService_append ty d hm hf]
          have hnames : (l.map Service.name).Nodup := by
            unfold userUnique at hu
            rw [hm] at hu
            exact hu
          have hnot : n ∉ l.map Service.name := by
            intro hmem
            obtain ⟨x, hx, hxn⟩ := List.mem_map.mp hmem
            have := List.find?_eq_none.mp hf x hx
            simp [hxn] at this
          unfold userUnique
          rw [getUserMetadata_set_self]
          simpa using nodup_concat_str hnames hnot
  · intro st uid n d hu
    cases hm : getUserMetadata st uid with
    | none =>
      rw [editService_of_none n d hm]
      exact hu
    | some v =>
      cases v with
      | num k =>
        rw [editService_of_num n d hm]
        simp [userUnique, getUserMetadata_set_self]
      | str s =>
        rw [editService_of_str n d hm]
        exact hu
      | arr l =>
        cases hf : updateFirst n d l with
        | none =>
          rw [editService_of_arr_miss d hm hf]
          exact hu
        | some r =>
          rw [editService_of_arr_found d hm hf]
          have hnames : (l.map Service.name).Nodup := by
            unfold userUnique at hu
            rw [hm] at hu
            exact hu
          unfold userUnique
          rw [getUserMetadata_set_self]
          show (List.map Service.name r).Nodup
          rw [updateFirst_names hf]
          exact hnames
  · intro c uid n ty d v h
    simp [cachePutHandler, h]

/-- Witness for the corrected C2 at concrete stores. -/
theorem c2_amended_witness :
    addService [("u", SVal.arr [⟨"n", "t", "d"⟩])] "u" "n" "t2" "d2" =
      (Except.error (JsErr.thrown "Trying to add a service which already exists"),
        [("u", SVal.arr [⟨"n", "t", "d"⟩])]) ∧
    userUnique (addService [("u", SVal.arr [⟨"n", "t", "d"⟩])] "u" "m" "t" "d").2 "u" ∧
    userUnique (editService [("u", SVal.arr [⟨"n", "t", "d"⟩])] "u" "n" "D").2 "u" ∧
    cachePutHandler [("u_X_A", CVal.nameData "X" "d")] "u" "X" "A" "e" =
      (none, [("u_X_A", CVal.nameData "X" "d")]) :=
  ⟨c2_amended_theorem.1 [("u", SVal.arr [⟨"n", "t", "d"⟩])] "u" "n" "t2" "d2"
      [⟨"n", "t", "d"⟩] ⟨"n", "t", "d"⟩ rfl rfl,
   c2_amended_theorem.2.1 [("u", SVal.arr [⟨"n", "t", "d"⟩])] "u" "m" "t" "d"
     (by decide),
   c2_amended_theorem.2.2.1 [("u", SVal.arr [⟨"n", "t", "d"⟩])] "u" "n" "D"
     (by decide),
   c2_amended_theorem.2.2.2 [("u_X_A", CVal.nameData "X" "d")] "u" "X" "A" "e"
     (CVal.nameData "X" "d") rfl⟩

/-- Claim C3 (confirmed): on every successful sign-in completion (the wrapped
call returned a result with status OK) the interceptor hands the wrapped
result back unchanged and performs exactly one credential-store write — a
register of the provider's fixed "Google Drive" record when the user has
none, otherwise an update of that record's `data` with the token-exchange
response.  In the cache-backed variant the single write is the one `SET` of
the fixed key, which changes no other cache entry. -/
theorem c3_theorem :
    (∀ (st : MetaStore) (r : SignInResult), r.isOK = true →
       wfUserMeta st r.userId = true →
       (thirdPartySignInUpPOST (Except.ok r) st).1 = Except.ok r ∧
       (thirdPartySignInUpPOST (Except.ok r) st).2.2.length = 1 ∧
       ((getServiceData st r.userId "Google Drive").1 = Except.ok none →
         (thirdPartySignInUpPOST (Except.ok r) st).2.2 =
           [WriteEvent.register r.userId "Google Drive" "GoogleDrive"]) ∧
       (∀ svc,
         (getServiceData st r.userId "Google Drive").1 = Except.ok (some svc) →
         (thirdPartySignInUpPOST (Except.ok r) st).2.2 =
           [WriteEvent.update r.userId "Google Drive"])) ∧
    (∀ (c : Cache) (r : SignInResult), r.isOK = true →
       (cacheSignInUpPOST (Except.ok r) c).1 = Except.ok r ∧
       (cacheSignInUpPOST (Except.ok r) c).2 =
         clientSet c (r.userId ++ "_Google Drive_GoogleDrive")
           (CVal.dataOnly r.authCodeResponse) ∧
       (∀ k, k ≠ r.userId ++ "_Google Drive_GoogleDrive" →
         clientGet ((cacheSignInUpPOST (Except.ok r) c).2) k = clientGet c k) ∧
       clientGet ((cacheSignInUpPOST (Except.ok r) c).2)
           (r.userId ++ "_Google Drive_GoogleDrive") =
         some (CVal.dataOnly r.authCodeResponse)) := by
  constructor
  · intro st r hOK hwf
    cases hm : getUserMetadata st r.userId with
    | none =>
      have hg := getServiceData_of_none (n := "Google Drive") hm
      have ha := addService_of_none "Google Drive" "GoogleDrive" r.authCodeResponse hm
      simp [thirdPartySignInUpPOST, hOK, hg, ha]
    | some v =>
      cases v with
      | num k =>
        have hg := getServiceData_of_num (n := "Google Drive") hm
        have h1 := getUserMetadata_set_self st r.userId (SVal.arr [])
        have hf : ([] : List Service).find? (fun y => y.name == "Google Drive") =
            none := rfl
        have ha := addService_append "GoogleDrive" r.authCodeResponse h1 hf
        simp [thirdPartySignInUpPOST, hOK, hg, ha]
      | str s =>
        have hs : s = "" := by
          unfold wfUserMeta at hwf
          rw [hm] at hwf
          simpa using hwf
        subst hs
        have hg := getServiceData_of_strEmpty (n := "Google Drive") hm
        have ha := addService_of_strEmpty "Google Drive" "GoogleDrive"
          r.authCodeResponse hm
        simp [thirdPartySignInUpPOST, hOK, hg, ha]
      | arr l =>
        have hg := getServiceData_of_arr (n := "Google Drive") hm
        cases hf : l.find? (fun x => x.name == "Google Drive") with
        | none =>
          have ha := addService_append "GoogleDrive" r.authCodeResponse hm hf
          simp [thirdPartySignInUpPOST, hOK, hg, hf, ha]
        | some x =>
          obtain ⟨rl, hrl⟩ :=
            updateFirst_isSome_of_find (d := r.authCodeResponse) hf
          have hed := editService_of_arr_found r.authCodeResponse hm hrl
          simp [thirdPartySignInUpPOST, hOK, hg, hf, hed]
  · intro c r hOK
    refine ⟨?_, ?_, ?_, ?_⟩
    · simp [cacheSignInUpPOST, hOK]
    · simp [cacheSignInUpPOST, hOK]
    · intro k hk
      simp only [cacheSignInUpPOST, hOK, if_true]
      exact assocGet_assocSet_ne c _ k _ hk
    · simp only [cacheSignInUpPOST, hOK, if_true]
      exact assocGet_assocSet_self c _ _

/-- Witness for C3: a fresh user's successful sign-in registers exactly the
fixed Google Drive record in the metadata variant and writes exactly the
fixed key in the cache variant, returning the result unchanged. -/
theorem c3_witness :
    (thirdPartySignInUpPOST (Except.ok ⟨true, "u", "tok"⟩) ([] : MetaStore)).1 =
      Except.ok ⟨true, "u", "tok"⟩ ∧
    (cacheSignInUpPOST (Except.ok ⟨true, "u", "tok"⟩) ([] : Cache)).1 =
      Except.ok ⟨true, "u", "tok"⟩ :=
  ⟨(c3_theorem.1 [] ⟨true, "u", "tok"⟩ rfl rfl).1,
   (c3_theorem.2 [] ⟨true, "u", "tok"⟩ rfl).1⟩

end JunctionAuth
